import Mathlib

/-!
Verification development for the PyTaskScheduler repository
(`src/task_scheduler.py`).

The file embeds the two "core" facilities of the repository in Lean:

* the temporal codec — `from_date_str` / `to_date_str` (instants) and
  `from_duration_str` / `to_duration_str` (offsets), together with the
  behaviour of the library values they rely on (`dateutil.relativedelta`
  normalization, `datetime.fromisoformat` / `datetime.isoformat`);
* the polymorphic kind dispatcher — `ActionType` / `TriggerType`
  discriminators, `get_action_class` / `get_trigger_class`, and the three
  wrapping paths of `ActionCollection` / `TriggerCollection`
  (`item`/`__getitem__`, `__iter__`, `create`).

Strings are modelled through their character lists (`String.data`); machine
integers are `Int`/`Nat` (Python integers are unbounded, so no wrap-around is
involved); Python exceptions are `Except` values.
-/

deriving instance DecidableEq for Except

namespace TaskScheduler

/-! ## Decimal digits

`Nat.digitChar d` is the character Python prints for the decimal digit `d`;
`natReprAux`/`natRepr` reproduce `str(n)` (equivalently `f"{n}"`) for a
non-negative integer: no sign, no leading zeros, `"0"` for zero.  The fuel
formulation keeps the definition structurally recursive so that concrete
computations reduce in the kernel. -/

def natReprAux : Nat → Nat → List Char
  | 0, _ => []
  | fuel + 1, n =>
    if n < 10 then [Nat.digitChar n]
    else natReprAux fuel (n / 10) ++ [Nat.digitChar (n % 10)]

def natRepr (n : Nat) : List Char :=
  natReprAux (n + 1) n

/-- The numeric value of an ASCII decimal digit character. -/
def digitVal (c : Char) : Nat := c.toNat - 48

/-- `int(s)` on a known-digit string: the value of a list of decimal digit
characters, most significant first. -/
def digitsToNat (l : List Char) : Nat :=
  l.foldl (fun a c => a * 10 + digitVal c) 0

/-- ASCII decimal digit test (the `\d` of the duration regex and the digit
checks of `int`, restricted to ASCII as produced by the printers). -/
def isDig (c : Char) : Bool := '0' ≤ c && c ≤ '9'

/-! ## Offsets (`dateutil.relativedelta` restricted to the six components)

`Offset` is the value of a `relativedelta` on the six fields the codec reads
and writes (`years, months, days, hours, minutes, seconds`); the remaining
`relativedelta` fields (`weekday`, `leapdays`, `microseconds`, the absolute
fields) are zero/`None` everywhere the codec touches and are not modelled. -/

structure Offset where
  years : Int
  months : Int
  days : Int
  hours : Int
  minutes : Int
  seconds : Int
deriving DecidableEq, Repr

/-- One carry step of `relativedelta._fix`: when `|lo| > bound` the excess is
carried into `hi` with modulus `m = bound + 1`, using Python's
`divmod(lo * sign, m)` on the made-non-negative operand. -/
def fixCarry (lo hi : Int) (bound : Nat) : Int × Int :=
  if bound < lo.natAbs then
    let sg : Int := if lo < 0 then -1 else 1
    let q : Int := (lo * sg) / (bound + 1)
    let r : Int := (lo * sg) % (bound + 1)
    (r * sg, hi + q * sg)
  else (lo, hi)

/-- The `relativedelta(years=…, months=…, days=…, hours=…, minutes=…,
seconds=…)` constructor: stores the six components and normalizes them via
`_fix` (seconds carry into minutes, minutes into hours, hours into days,
months into years; days never carry into months). -/
def relativedelta (years months days hours minutes seconds : Int) : Offset :=
  let (seconds, minutes) := fixCarry seconds minutes 59
  let (minutes, hours) := fixCarry minutes hours 59
  let (hours, days) := fixCarry hours days 23
  let (months, years) := fixCarry months years 11
  ⟨years, months, days, hours, minutes, seconds⟩

/-! ## Duration string codec -/

/-- One optional component `(?:(\d+)X)?` of the duration regex at the current
position: if a non-empty maximal digit run is immediately followed by the unit
letter (case-insensitively), the component is consumed; otherwise nothing is
consumed.  Because the digit run is maximal and the unit letters are not
digits, this deterministic reading coincides with the backtracking regex
match of `duration_pattern`. -/
def duration_comp (unit : Char) (l : List Char) : Option Nat × List Char :=
  let ds := l.takeWhile isDig
  let rest := l.dropWhile isDig
  match ds, rest with
  | [], _ => (none, l)
  | _ :: _, c :: rest2 =>
    if c.toLower = unit then (some (digitsToNat ds), rest2) else (none, l)
  | _ :: _, [] => (none, l)

/-- `duration_pattern.match(string)` followed by the six `int(match.group(i))`
extractions of `from_duration_str`: a *prefix* match (Python `re.match`) of
`P(?:(\d+)Y)?(?:(\d+)M)?(?:(\d+)D)?T(?:(\d+)H)?(?:(\d+)M)?(?:(\d+)S)?`
(case-insensitive), with missing groups read as `0`.  Trailing characters
after the matched prefix are ignored, exactly as `re.match` ignores them. -/
def duration_match (l : List Char) : Option (Nat × Nat × Nat × Nat × Nat × Nat) :=
  match l with
  | [] => none
  | p :: l1 =>
    if p.toLower = 'p' then
      let (y, l2) := duration_comp 'y' l1
      let (mo, l3) := duration_comp 'm' l2
      let (d, l4) := duration_comp 'd' l3
      match l4 with
      | [] => none
      | t :: l5 =>
        if t.toLower = 't' then
          let (h, l6) := duration_comp 'h' l5
          let (mi, l7) := duration_comp 'm' l6
          let (s, _) := duration_comp 's' l7
          some (y.getD 0, mo.getD 0, d.getD 0, h.getD 0, mi.getD 0, s.getD 0)
        else none
    else none

/-- `from_duration_str` of `task_scheduler.py`: empty string → `None`; no
regex match → `None`; all parsed components zero → `None`; otherwise the
`relativedelta` built from the parsed components. -/
def from_duration_str (s : String) : Option Offset :=
  if s = "" then none
  else
    match duration_match s.data with
    | none => none
    | some (y, mo, d, h, mi, sec) =>
      if y + mo + d + h + mi + sec = 0 then none
      else some (relativedelta y mo d h mi sec)

/-- `to_duration_str` of `task_scheduler.py`: `None` → `default`; otherwise
emit `P`, each of the Y/M/D components that is `> 0`, `T`, each of the H/M/S
components that is `> 0`; if nothing besides `P` and `T` was emitted
(`len(parts) == 2`), return `default`. -/
def to_duration_str (rd : Option Offset) (default : String := "PT0S") : String :=
  match rd with
  | none => default
  | some rd =>
    let parts : List (List Char) :=
      [['P']]
      ++ (if rd.years > 0 then [natRepr rd.years.toNat ++ ['Y']] else [])
      ++ (if rd.months > 0 then [natRepr rd.months.toNat ++ ['M']] else [])
      ++ (if rd.days > 0 then [natRepr rd.days.toNat ++ ['D']] else [])
      ++ [['T']]
      ++ (if rd.hours > 0 then [natRepr rd.hours.toNat ++ ['H']] else [])
      ++ (if rd.minutes > 0 then [natRepr rd.minutes.toNat ++ ['M']] else [])
      ++ (if rd.seconds > 0 then [natRepr rd.seconds.toNat ++ ['S']] else [])
    if parts.length = 2 then default else ⟨parts.flatten⟩

/-! ## Instants (`datetime.datetime` at the granularity the codec uses)

A `Datetime` is a `datetime.datetime` value: calendar fields, microseconds,
and an optional fixed UTC offset (`tzinfo = timezone(timedelta(seconds=off))`,
modelled at second precision — offsets with a fractional-second part are not
representable here, so the `±HH:MM:SS.ffffff` branch of the parser is out of
the model).  Python guarantees `1 ≤ year ≤ 9999` etc. for every constructed
value; `Datetime.Valid` states that constructor invariant. -/

structure Datetime where
  year : Nat
  month : Nat
  day : Nat
  hour : Nat
  minute : Nat
  second : Nat
  microsecond : Nat
  /-- UTC offset in seconds; `none` for a naive datetime. -/
  tzoffset : Option Int
deriving DecidableEq, Repr

/-- `calendar`/`datetime`'s leap-year rule. -/
def isLeapYear (y : Nat) : Bool :=
  y % 4 = 0 && (y % 100 ≠ 0 || y % 400 = 0)

/-- `_days_in_month` of the `datetime` module. -/
def daysInMonth (y m : Nat) : Nat :=
  if m = 2 then (if isLeapYear y then 29 else 28)
  else if m = 4 ∨ m = 6 ∨ m = 9 ∨ m = 11 then 30
  else 31

/-- The invariant the `datetime.datetime` constructor enforces (and the
`timezone` constructor's strict `±24h` offset bound, at second precision). -/
def Datetime.Valid (d : Datetime) : Prop :=
  1 ≤ d.year ∧ d.year ≤ 9999 ∧
  1 ≤ d.month ∧ d.month ≤ 12 ∧
  1 ≤ d.day ∧ d.day ≤ daysInMonth d.year d.month ∧
  d.hour ≤ 23 ∧ d.minute ≤ 59 ∧ d.second ≤ 59 ∧
  d.microsecond ≤ 999999 ∧
  ∀ off ∈ d.tzoffset, off.natAbs ≤ 86399

instance (d : Datetime) : Decidable d.Valid := by
  unfold Datetime.Valid
  exact inferInstance

/-! ## Instant string codec -/

/-- `f"{n:02d}"` for `n < 100` (zero-padded two-digit field). -/
def pad2 (n : Nat) : List Char :=
  [Nat.digitChar (n / 10), Nat.digitChar (n % 10)]

/-- `f"{n:04d}"` for `n < 10000` (zero-padded four-digit field). -/
def pad4 (n : Nat) : List Char :=
  [Nat.digitChar (n / 1000), Nat.digitChar (n / 100 % 10),
   Nat.digitChar (n / 10 % 10), Nat.digitChar (n % 10)]

/-- `f"{n:06d}"` for `n < 1000000` (zero-padded six-digit field). -/
def pad6 (n : Nat) : List Char :=
  [Nat.digitChar (n / 100000), Nat.digitChar (n / 10000 % 10),
   Nat.digitChar (n / 1000 % 10), Nat.digitChar (n / 100 % 10),
   Nat.digitChar (n / 10 % 10), Nat.digitChar (n % 10)]

/-- The `YYYY-MM-DD` part of `isoformat` output. -/
def dateCore (y mo d : Nat) : List Char :=
  pad4 y ++ ('-' :: (pad2 mo ++ ('-' :: pad2 d)))

/-- The `HH:MM:SS` part of `isoformat` output (`timespec='auto'` with zero
microseconds prints exactly the three groups). -/
def timeCore (h mi s : Nat) : List Char :=
  pad2 h ++ (':' :: (pad2 mi ++ (':' :: pad2 s)))

/-- The digits of a rendered UTC offset of absolute value `a` seconds:
`HH:MM`, extended with `:SS` iff the offset has a sub-minute part (CPython's
`_format_offset` on a whole-second `timedelta`). -/
def tzDigits (a : Nat) : List Char :=
  pad2 (a / 3600) ++ (':' :: (pad2 (a % 3600 / 60)
    ++ (if a % 60 ≠ 0 then ':' :: pad2 (a % 60) else [])))

/-- A rendered UTC offset: sign then digits. -/
def tzCore (off : Int) : List Char :=
  (if off < 0 then '-' else '+') :: tzDigits off.natAbs

/-- `datetime.isoformat()` (default separator `'T'`, default
`timespec='auto'`): `YYYY-MM-DDTHH:MM:SS`, a `.ffffff` part iff the
microsecond field is nonzero, and for an aware value the UTC offset. -/
def isoformatList (d : Datetime) : List Char :=
  dateCore d.year d.month d.day
    ++ 'T' :: (timeCore d.hour d.minute d.second
      ++ ((if d.microsecond ≠ 0 then '.' :: pad6 d.microsecond else [])
        ++ (match d.tzoffset with
            | none => []
            | some off => tzCore off)))

/-- `int` of an exact two-character slice, as the isoformat parser uses it:
both characters must be decimal digits.  (CPython's `int` also tolerates
signs and whitespace; the parser's slices are never of that shape for any
input the development evaluates, and the printers emit digits only.) -/
def int2 (c d : Char) : Except String Nat :=
  if isDig c && isDig d then .ok (digitVal c * 10 + digitVal d)
  else .error "invalid literal for int"

/-- `int` of an exact four-character slice (the year field). -/
def int4 (c1 c2 c3 c4 : Char) : Except String Nat :=
  if isDig c1 && isDig c2 && isDig c3 && isDig c4 then
    .ok (((digitVal c1 * 10 + digitVal c2) * 10 + digitVal c3) * 10 + digitVal c4)
  else .error "invalid literal for int"

/-- `int` of a digits-only slice of known positive length (the fractional
part). -/
def intAll (l : List Char) : Except String Nat :=
  if l ≠ [] ∧ l.all isDig then .ok (digitsToNat l) else .error "invalid literal for int"

/-- `str.find(c)`: index of the first occurrence, `none` when absent. -/
def strFind (c : Char) : List Char → Option Nat
  | [] => none
  | a :: rest => if a = c then some 0 else (strFind c rest).map (· + 1)

/-- `_parse_hh_mm_ss_ff` of the `datetime` module: `HH[:MM[:SS[.fff[fff]]]]`,
two-digit groups separated by `':'`, an optional fractional part of exactly
three or six digits; the groups are *not* range-checked here (the
`datetime`/`timezone` constructors do that). -/
def parse_hh_mm_ss_ff (l : List Char) : Except String (Nat × Nat × Nat × Nat) :=
  match l with
  | c1 :: c2 :: rest => do
    let hh ← int2 c1 c2
    match rest with
    | [] => pure (hh, 0, 0, 0)
    | ':' :: c3 :: c4 :: rest3 => do
      let mm ← int2 c3 c4
      match rest3 with
      | [] => pure (hh, mm, 0, 0)
      | ':' :: c5 :: c6 :: rest5 => do
        let ss ← int2 c5 c6
        match rest5 with
        | [] => pure (hh, mm, ss, 0)
        | '.' :: fr =>
          if fr.length = 3 ∨ fr.length = 6 then do
            let us ← intAll fr
            pure (hh, mm, ss, if fr.length = 3 then us * 1000 else us)
          else .error "Invalid microsecond component"
        | _ => .error "Invalid microsecond component"
      | ':' :: _ => .error "Incomplete time component"
      | _ => .error "Invalid time separator"
    | ':' :: _ => .error "Incomplete time component"
    | _ => .error "Invalid time separator"
  | _ => .error "Incomplete time component"

/-- `_parse_isoformat_time`: split the time string at the first `'-'` (or,
failing that, the first `'+'`), parse the part before it as
`HH[:MM[:SS[.fff[fff]]]]`, and the part after it as a UTC offset whose
length must be 5 (`HH:MM`) or 8 (`HH:MM:SS`); an all-zero offset is
`timezone.utc`, otherwise `timezone(sign * timedelta(...))`, whose
constructor rejects offsets of 24 hours or more.  (The length-15
`HH:MM:SS.ffffff` offset form lies outside the second-precision model.) -/
def parse_isoformat_time (l : List Char) :
    Except String ((Nat × Nat × Nat × Nat) × Option Int) :=
  if l.length < 2 then .error "Isoformat time too short"
  else
    let tzSplit : Option (Int × Nat) :=
      match strFind '-' l with
      | some i => some (-1, i)
      | none =>
        match strFind '+' l with
        | some i => some (1, i)
        | none => none
    match tzSplit with
    | none => do
      let tc ← parse_hh_mm_ss_ff l
      pure (tc, none)
    | some (sign, i) => do
      let timestr := l.take i
      let tzstr := l.drop (i + 1)
      let tc ← parse_hh_mm_ss_ff timestr
      if tzstr.length = 5 ∨ tzstr.length = 8 then do
        let (th, tm, ts, tus) ← parse_hh_mm_ss_ff tzstr
        if th = 0 ∧ tm = 0 ∧ ts = 0 ∧ tus = 0 then
          pure (tc, some 0)
        else
          let off : Int := sign * ((th : Int) * 3600 + (tm : Int) * 60 + (ts : Int))
          if off.natAbs ≤ 86399 then pure (tc, some off)
          else .error "offset must be a timedelta strictly between"
      else .error "Malformed time zone string"

/-- `_parse_isoformat_date`: exactly `YYYY-MM-DD` — four digits, `'-'`, two
digits, `'-'`, two digits. -/
def parse_isoformat_date (l : List Char) : Except String (Nat × Nat × Nat) :=
  match l with
  | [c1, c2, c3, c4, '-', c5, c6, '-', c7, c8] => do
    let y ← int4 c1 c2 c3 c4
    let mo ← int2 c5 c6
    let d ← int2 c7 c8
    pure (y, mo, d)
  | _ => .error "Invalid isoformat string"

/-- The `datetime.datetime` constructor's range validation. -/
def datetime_new (y mo d h mi s us : Nat) (tz : Option Int) :
    Except String Datetime :=
  if 1 ≤ y ∧ y ≤ 9999 ∧ 1 ≤ mo ∧ mo ≤ 12 ∧ 1 ≤ d ∧ d ≤ daysInMonth y mo
      ∧ h ≤ 23 ∧ mi ≤ 59 ∧ s ≤ 59 ∧ us ≤ 999999 then
    .ok ⟨y, mo, d, h, mi, s, us, tz⟩
  else .error "field value out of range"

/-- `datetime.fromisoformat` (the strict inverse-of-`isoformat` parser): the
first ten characters are the date, character ten (any character) is the
separator, the rest — when non-empty — is the time-and-offset part. -/
def fromisoformat (s : String) : Except String Datetime :=
  let l := s.data
  let dstr := l.take 10
  let tstr := l.drop 11
  do
    let (y, mo, d) ← parse_isoformat_date dstr
    let ((h, mi, sec, us), tz) ←
      if tstr.isEmpty then pure ((0, 0, 0, 0), (none : Option Int))
      else parse_isoformat_time tstr
    datetime_new y mo d h mi sec us tz

/-- `from_date_str` of `task_scheduler.py`: empty string → `None`; any other
string is given to `datetime.fromisoformat`, whose failure propagates. -/
def from_date_str (s : String) : Except String (Option Datetime) :=
  if s = "" then .ok none
  else (fromisoformat s).map some

/-- `to_date_str` of `task_scheduler.py`: `None` → `default`; otherwise
`dt.isoformat()`. -/
def to_date_str (dt : Option Datetime) (default : String := "") : String :=
  match dt with
  | none => default
  | some d => ⟨isoformatList d⟩

/-- Modelled from the spec: the instant wire format of §6 —
`YYYY-MM-DDTHH:MM:SS` optionally followed by a UTC offset `±HH:MM` — as a
recognizer, to be compared against what `to_date_str` actually emits. -/
def instantWireFormat (l : List Char) : Bool :=
  match l with
  | [y1, y2, y3, y4, '-', m1, m2, '-', d1, d2, 'T',
     h1, h2, ':', n1, n2, ':', s1, s2] =>
    [y1, y2, y3, y4, m1, m2, d1, d2, h1, h2, n1, n2, s1, s2].all isDig
  | [y1, y2, y3, y4, '-', m1, m2, '-', d1, d2, 'T',
     h1, h2, ':', n1, n2, ':', s1, s2, sg, o1, o2, ':', o3, o4] =>
    (sg = '+' || sg = '-')
      && [y1, y2, y3, y4, m1, m2, d1, d2, h1, h2, n1, n2, s1, s2,
          o1, o2, o3, o4].all isDig
  | _ => false

/-! ## Polymorphic kind dispatcher

Python exceptions of the dispatcher, distinguished by class as the code
distinguishes them (`except com_error` catches only `comError`). -/

inductive PyError where
  | valueError (msg : String)
  | runtimeError (msg : String)
  | indexError (msg : String)
  | comError (msg : String)
deriving DecidableEq, Repr

/-- `ActionType` of `task_scheduler.py` (a Python `Enum`). -/
inductive ActionType where
  | EXEC
  | COM_HANDLER
  | SEND_EMAIL
  | SHOW_MESSAGE
deriving DecidableEq, Repr

/-- The wire value of each `ActionType` member. -/
def ActionType.value : ActionType → Int
  | .EXEC => 0
  | .COM_HANDLER => 5
  | .SEND_EMAIL => 6
  | .SHOW_MESSAGE => 7

/-- The `ActionType(v)` enum call: the member with that value, or
`ValueError` for an unregistered value. -/
def ActionType.fromValue (v : Int) : Except PyError ActionType :=
  if v = 0 then .ok .EXEC
  else if v = 5 then .ok .COM_HANDLER
  else if v = 6 then .ok .SEND_EMAIL
  else if v = 7 then .ok .SHOW_MESSAGE
  else .error (.valueError "is not a valid ActionType")

/-- `TriggerType` of `task_scheduler.py` (a Python `Enum`). -/
inductive TriggerType where
  | EVENT
  | TIME
  | DAILY
  | WEEKLY
  | MONTHLY
  | MONTHLY_DOW
  | IDLE
  | REGISTRATION
  | BOOT
  | LOGON
  | SESSION_STATE_CHANGE
  | CUSTOM_TRIGGER
deriving DecidableEq, Repr

/-- The wire value of each `TriggerType` member (10 is unassigned). -/
def TriggerType.value : TriggerType → Int
  | .EVENT => 0
  | .TIME => 1
  | .DAILY => 2
  | .WEEKLY => 3
  | .MONTHLY => 4
  | .MONTHLY_DOW => 5
  | .IDLE => 6
  | .REGISTRATION => 7
  | .BOOT => 8
  | .LOGON => 9
  | .SESSION_STATE_CHANGE => 11
  | .CUSTOM_TRIGGER => 12

/-- The `TriggerType(v)` enum call. -/
def TriggerType.fromValue (v : Int) : Except PyError TriggerType :=
  if v = 0 then .ok .EVENT
  else if v = 1 then .ok .TIME
  else if v = 2 then .ok .DAILY
  else if v = 3 then .ok .WEEKLY
  else if v = 4 then .ok .MONTHLY
  else if v = 5 then .ok .MONTHLY_DOW
  else if v = 6 then .ok .IDLE
  else if v = 7 then .ok .REGISTRATION
  else if v = 8 then .ok .BOOT
  else if v = 9 then .ok .LOGON
  else if v = 11 then .ok .SESSION_STATE_CHANGE
  else if v = 12 then .ok .CUSTOM_TRIGGER
  else .error (.valueError "is not a valid TriggerType")

/-- The concrete `Action` wrapper classes of `task_scheduler.py`. -/
inductive ActionClass where
  | ExecAction
  | ComHandlerAction
  | EmailAction
  | ShowMessageAction
deriving DecidableEq, Repr

/-- The concrete `Trigger` wrapper classes of `task_scheduler.py`. -/
inductive TriggerClass where
  | EventTrigger
  | TimeTrigger
  | DailyTrigger
  | WeeklyTrigger
  | MonthlyTrigger
  | MonthlyDOWTrigger
  | IdleTrigger
  | RegistrationTrigger
  | BootTrigger
  | LogonTrigger
  | SessionStateChangeTrigger
deriving DecidableEq, Repr

/-- `ActionCollection.get_action_class`: the `if`/`elif` chain over the four
registered action kinds, `RuntimeError` otherwise. -/
def get_action_class (t : ActionType) : Except PyError ActionClass :=
  if t = .EXEC then .ok .ExecAction
  else if t = .COM_HANDLER then .ok .ComHandlerAction
  else if t = .SEND_EMAIL then .ok .EmailAction
  else if t = .SHOW_MESSAGE then .ok .ShowMessageAction
  else .error (.runtimeError "Invalid type")

/-- `TriggerCollection.get_trigger_class`: the `if`/`elif` chain over the
eleven registered trigger kinds (the `CUSTOM_TRIGGER` arm is commented out in
the source), `RuntimeError` otherwise. -/
def get_trigger_class (t : TriggerType) : Except PyError TriggerClass :=
  if t = .EVENT then .ok .EventTrigger
  else if t = .TIME then .ok .TimeTrigger
  else if t = .DAILY then .ok .DailyTrigger
  else if t = .WEEKLY then .ok .WeeklyTrigger
  else if t = .MONTHLY then .ok .MonthlyTrigger
  else if t = .MONTHLY_DOW then .ok .MonthlyDOWTrigger
  else if t = .IDLE then .ok .IdleTrigger
  else if t = .REGISTRATION then .ok .RegistrationTrigger
  else if t = .BOOT then .ok .BootTrigger
  else if t = .LOGON then .ok .LogonTrigger
  else if t = .SESSION_STATE_CHANGE then .ok .SessionStateChangeTrigger
  else .error (.runtimeError "Invalid type")

/-- An opaque action handle returned by the external service; the code reads
only its `Type` discriminator property. -/
structure ComAction where
  typeVal : Int
deriving DecidableEq, Repr

/-- An opaque trigger handle returned by the external service. -/
structure ComTrigger where
  typeVal : Int
deriving DecidableEq, Repr

/-- 1-based `Item(index)` on a COM collection: `com_error` outside
`1..Count`.  Modelled from the spec: the underlying collection is the
external service's; §6 specifies 1-based item retrieval raising a
distinguishable not-found condition out of range. -/
def comItem (coll : List α) (index : Int) : Except PyError α :=
  if 1 ≤ index ∧ index ≤ coll.length then
    match coll.get? (index - 1).toNat with
    | some a => .ok a
    | none => .error (.comError "not found")
  else .error (.comError "not found")

/-- The wrap step shared by `item` and `__iter__`:
`get_action_class(ActionType(obj.Type))(obj)` — the discriminator is read
from the handle, converted to the enum, dispatched, and the chosen class is
constructed around the handle (modelled as the pair of class and handle). -/
def wrapAction (obj : ComAction) : Except PyError (ActionClass × ComAction) :=
  match ActionType.fromValue obj.typeVal with
  | .error e => .error e
  | .ok t =>
    match get_action_class t with
    | .error e => .error e
    | .ok cls => .ok (cls, obj)

/-- `TriggerCollection`'s wrap step. -/
def wrapTrigger (obj : ComTrigger) : Except PyError (TriggerClass × ComTrigger) :=
  match TriggerType.fromValue obj.typeVal with
  | .error e => .error e
  | .ok t =>
    match get_trigger_class t with
    | .error e => .error e
    | .ok cls => .ok (cls, obj)

/-- Sequential traversal with fail-fast error propagation: the behaviour of
consuming Python's `map(mapper, handles)` iterator to the end. -/
def iterMap (f : α → Except ε β) : List α → Except ε (List β)
  | [] => .ok []
  | a :: l =>
    match f a with
    | .error e => .error e
    | .ok b =>
      match iterMap f l with
      | .error e => .error e
      | .ok rest => .ok (b :: rest)

/-- `ActionCollection.item` (also `__getitem__`): fetch the 1-based item,
translating only `com_error` into `IndexError`, then wrap it; enum/dispatch
errors propagate untranslated. -/
def ActionCollection.item (coll : List ComAction) (index : Int) :
    Except PyError (ActionClass × ComAction) :=
  match comItem coll index with
  | .error (.comError _) => .error (.indexError "No Action at index")
  | .error e => .error e
  | .ok obj => wrapAction obj

/-- `TriggerCollection.item` (also `__getitem__`). -/
def TriggerCollection.item (coll : List ComTrigger) (index : Int) :
    Except PyError (TriggerClass × ComTrigger) :=
  match comItem coll index with
  | .error (.comError _) => .error (.indexError "No Trigger at index")
  | .error e => .error e
  | .ok obj => wrapTrigger obj

/-- `ActionCollection.__iter__`: `map(mapper, self._obj)` with the same wrap
step applied to every handle, modelled as the fully forced iteration. -/
def ActionCollection.iterate (coll : List ComAction) :
    Except PyError (List (ActionClass × ComAction)) :=
  iterMap wrapAction coll

/-- `TriggerCollection.__iter__`. -/
def TriggerCollection.iterate (coll : List ComTrigger) :
    Except PyError (List (TriggerClass × ComTrigger)) :=
  iterMap wrapTrigger coll

/-- `ActionCollection.create`: dispatch on the requested kind first, then ask
the service for a fresh handle via `Create(type.value)` and construct the
chosen class around it.  Modelled from the spec: the service's `Create` —
code outside this repository — returns a handle whose readable discriminator
property is the requested kind's value (§6). -/
def ActionCollection.create (coll : List ComAction) (t : ActionType) :
    Except PyError ((ActionClass × ComAction) × List ComAction) :=
  match get_action_class t with
  | .error e => .error e
  | .ok cls => .ok ((cls, ⟨t.value⟩), coll ++ [⟨t.value⟩])

/-- `TriggerCollection.create`. -/
def TriggerCollection.create (coll : List ComTrigger) (t : TriggerType) :
    Except PyError ((TriggerClass × ComTrigger) × List ComTrigger) :=
  match get_trigger_class t with
  | .error e => .error e
  | .ok cls => .ok ((cls, ⟨t.value⟩), coll ++ [⟨t.value⟩])

/-- The contribution of one offset component to the encoded duration string:
its decimal digits followed by its unit letter when positive, nothing
otherwise (the flattened form of one conditional entry of `to_duration_str`'s
`parts`). -/
def optComp (n : Int) (u : Char) : List Char :=
  if 0 < n then natRepr n.toNat ++ [u] else []

/-! ## Digit and decimal-representation lemmas -/

theorem digitChar_isDig : ∀ d : Nat, d < 10 → isDig (Nat.digitChar d) = true := by
  decide

theorem digitVal_digitChar : ∀ d : Nat, d < 10 → digitVal (Nat.digitChar d) = d := by
  decide

theorem digitsToNat_append_singleton (l : List Char) (c : Char) :
    digitsToNat (l ++ [c]) = digitsToNat l * 10 + digitVal c := by
  simp [digitsToNat, List.foldl_append]

theorem natReprAux_spec : ∀ (fuel n : Nat), n < fuel →
    (∀ c ∈ natReprAux fuel n, isDig c = true)
    ∧ digitsToNat (natReprAux fuel n) = n
    ∧ natReprAux fuel n ≠ [] := by
  intro fuel
  induction fuel with
  | zero => intro n h; omega
  | succ f ih =>
    intro n h
    by_cases h10 : n < 10
    · refine ⟨?_, ?_, ?_⟩
      · intro c hc
        simp only [natReprAux, if_pos h10, List.mem_singleton] at hc
        subst hc
        exact digitChar_isDig n h10
      · simp only [natReprAux, if_pos h10]
        simp [digitsToNat, digitVal_digitChar n h10]
      · simp [natReprAux, if_pos h10]
    · have hrec : n / 10 < f := by omega
      obtain ⟨ihall, ihval, ihne⟩ := ih (n / 10) hrec
      have hm : n % 10 < 10 := Nat.mod_lt n (by omega)
      refine ⟨?_, ?_, ?_⟩
      · intro c hc
        simp only [natReprAux, if_neg h10, List.mem_append, List.mem_singleton] at hc
        rcases hc with hc | hc
        · exact ihall c hc
        · subst hc; exact digitChar_isDig _ hm
      · simp only [natReprAux, if_neg h10, digitsToNat_append_singleton, ihval,
          digitVal_digitChar _ hm]
        omega
      · simp [natReprAux, if_neg h10]

theorem natRepr_all_isDig (n : Nat) : ∀ c ∈ natRepr n, isDig c = true :=
  (natReprAux_spec (n + 1) n (Nat.lt_succ_self n)).1

theorem digitsToNat_natRepr (n : Nat) : digitsToNat (natRepr n) = n :=
  (natReprAux_spec (n + 1) n (Nat.lt_succ_self n)).2.1

theorem natRepr_ne_nil (n : Nat) : natRepr n ≠ [] :=
  (natReprAux_spec (n + 1) n (Nat.lt_succ_self n)).2.2

/-! ## takeWhile/dropWhile over an all-digit block -/

theorem takeWhile_all_append {p : Char → Bool} :
    ∀ {l1 : List Char}, (∀ c ∈ l1, p c = true) → ∀ {u : Char}, p u = false →
      ∀ l2 : List Char,
        (l1 ++ u :: l2).takeWhile p = l1 ∧ (l1 ++ u :: l2).dropWhile p = u :: l2 := by
  intro l1
  induction l1 with
  | nil =>
    intro _ u hu l2
    simp [List.takeWhile, List.dropWhile, hu]
  | cons a l1 ih =>
    intro hall u hu l2
    have ha : p a = true := hall a (List.mem_cons_self a l1)
    have hrest := ih (fun c hc => hall c (List.mem_cons_of_mem a hc)) hu l2
    simp [List.takeWhile, List.dropWhile, ha, hrest.1, hrest.2]

/-! ## Behaviour of `duration_comp` on encoder output -/

theorem duration_comp_match (u U : Char) (hU : U.toLower = u) (hUd : isDig U = false)
    (n : Nat) (rest : List Char) :
    duration_comp u (natRepr n ++ U :: rest) = (some n, rest) := by
  obtain ⟨htake, hdrop⟩ := takeWhile_all_append (natRepr_all_isDig n) hUd rest
  have hval : digitsToNat (natRepr n) = n := digitsToNat_natRepr n
  cases hnr : natRepr n with
  | nil => exact absurd hnr (natRepr_ne_nil n)
  | cons c t =>
    rw [hnr] at htake hdrop hval
    simp only [List.cons_append] at htake hdrop
    simp [duration_comp, htake, hdrop, hU, hval]

theorem duration_comp_skip (u : Char) (l : List Char)
    (hsk : ∀ c, (l.dropWhile isDig).head? = some c → c.toLower ≠ u) :
    duration_comp u l = (none, l) := by
  simp only [duration_comp]
  cases hds : l.takeWhile isDig with
  | nil => rfl
  | cons a t =>
    cases hrest : l.dropWhile isDig with
    | nil => rfl
    | cons c r =>
      have hne : c.toLower ≠ u := hsk c (by rw [hrest]; rfl)
      simp [if_neg hne]

theorem dropWhile_head_optComp (n : Int) (u : Char) (hu : isDig u = false)
    (l : List Char) :
    ((optComp n u ++ l).dropWhile isDig).head? =
      if 0 < n then some u else (l.dropWhile isDig).head? := by
  unfold optComp
  split_ifs with h
  · have := (takeWhile_all_append (natRepr_all_isDig n.toNat) hu l).2
    rw [List.append_assoc, List.singleton_append, this]
    rfl
  · simp

theorem duration_comp_step (u U : Char) (hU : U.toLower = u) (hUd : isDig U = false)
    (n : Int) (tail : List Char)
    (hskip : ∀ c, (tail.dropWhile isDig).head? = some c → c.toLower ≠ u) :
    duration_comp u (optComp n U ++ tail) =
      (if 0 < n then some n.toNat else none, tail) := by
  unfold optComp
  split_ifs with h
  · rw [List.append_assoc, List.singleton_append]
    exact duration_comp_match u U hU hUd n.toNat tail
  · simp only [List.nil_append]
    exact duration_comp_skip u tail hskip

theorem opt_getD (n : Int) : (if 0 < n then some n.toNat else none).getD 0 = n.toNat := by
  split_ifs with h
  · rfl
  · simp; omega

/-! ## The encoder's output as one flat character list -/

theorem to_duration_str_flat (o : Offset) (d : String)
    (hpos : 0 < o.years ∨ 0 < o.months ∨ 0 < o.days ∨
      0 < o.hours ∨ 0 < o.minutes ∨ 0 < o.seconds) :
    to_duration_str (some o) d =
      ⟨'P' :: (optComp o.years 'Y' ++ optComp o.months 'M' ++ optComp o.days 'D'
        ++ 'T' :: (optComp o.hours 'H' ++ optComp o.minutes 'M'
          ++ optComp o.seconds 'S'))⟩ := by
  simp only [to_duration_str, optComp]
  have hgt : ∀ n : Int, (n > 0) = (0 < n) := fun n => rfl
  split_ifs with h1 h2 h3 h4 h5 h6 <;>
    first
      | (exfalso
         simp only [List.length_append, List.length_cons, List.length_nil,
           List.length_singleton] at *
         omega)
      | simp_all

/-! ## The parser recovers the encoder's components -/

theorem duration_match_print (o : Offset) :
    duration_match
      ('P' :: (optComp o.years 'Y' ++ optComp o.months 'M' ++ optComp o.days 'D'
        ++ 'T' :: (optComp o.hours 'H' ++ optComp o.minutes 'M'
          ++ optComp o.seconds 'S'))) =
      some (o.years.toNat, o.months.toNat, o.days.toNat,
        o.hours.toNat, o.minutes.toNat, o.seconds.toNat) := by
  have hShead : ((optComp o.seconds 'S').dropWhile isDig).head? =
      if 0 < o.seconds then some 'S' else none := by
    rw [show (optComp o.seconds 'S' : List Char) = optComp o.seconds 'S' ++ [] by simp,
      dropWhile_head_optComp o.seconds 'S' (by decide) []]
    split_ifs <;> rfl
  have hT : (List.dropWhile isDig
      ('T' :: (optComp o.hours 'H' ++ (optComp o.minutes 'M'
        ++ optComp o.seconds 'S')))).head? = some 'T' := rfl
  have htailY : ∀ c, ((optComp o.months 'M' ++ (optComp o.days 'D'
      ++ 'T' :: (optComp o.hours 'H' ++ (optComp o.minutes 'M'
        ++ optComp o.seconds 'S')))).dropWhile isDig).head? = some c →
      c.toLower ≠ 'y' := by
    intro c hc
    rw [dropWhile_head_optComp o.months 'M' (by decide) _,
      dropWhile_head_optComp o.days 'D' (by decide) _, hT] at hc
    split_ifs at hc <;> (injection hc with hc; subst hc; decide)
  have htailM : ∀ c, ((optComp o.days 'D'
      ++ 'T' :: (optComp o.hours 'H' ++ (optComp o.minutes 'M'
        ++ optComp o.seconds 'S'))).dropWhile isDig).head? = some c →
      c.toLower ≠ 'm' := by
    intro c hc
    rw [dropWhile_head_optComp o.days 'D' (by decide) _, hT] at hc
    split_ifs at hc <;> (injection hc with hc; subst hc; decide)
  have htailD : ∀ c, (('T' :: (optComp o.hours 'H' ++ (optComp o.minutes 'M'
      ++ optComp o.seconds 'S'))).dropWhile isDig).head? = some c →
      c.toLower ≠ 'd' := by
    intro c hc
    rw [hT] at hc
    injection hc with hc; subst hc; decide
  have htailH : ∀ c, ((optComp o.minutes 'M'
      ++ optComp o.seconds 'S').dropWhile isDig).head? = some c →
      c.toLower ≠ 'h' := by
    intro c hc
    rw [dropWhile_head_optComp o.minutes 'M' (by decide) _, hShead] at hc
    split_ifs at hc <;>
      first
        | (injection hc with hc; subst hc; decide)
        | simp at hc
  have htailMi : ∀ c, ((optComp o.seconds 'S').dropWhile isDig).head? = some c →
      c.toLower ≠ 'm' := by
    intro c hc
    rw [hShead] at hc
    split_ifs at hc <;>
      first
        | (injection hc with hc; subst hc; decide)
        | simp at hc
  have htailS : ∀ c, (([] : List Char).dropWhile isDig).head? = some c →
      c.toLower ≠ 's' := by
    intro c hc
    simp at hc
  have stepY := duration_comp_step 'y' 'Y' (by decide) (by decide) o.years _ htailY
  have stepM := duration_comp_step 'm' 'M' (by decide) (by decide) o.months _ htailM
  have stepD := duration_comp_step 'd' 'D' (by decide) (by decide) o.days _ htailD
  have stepH := duration_comp_step 'h' 'H' (by decide) (by decide) o.hours _ htailH
  have stepMi := duration_comp_step 'm' 'M' (by decide) (by decide) o.minutes _ htailMi
  have stepS : duration_comp 's' (optComp o.seconds 'S') =
      (if 0 < o.seconds then some o.seconds.toNat else none, []) := by
    have := duration_comp_step 's' 'S' (by decide) (by decide) o.seconds [] htailS
    simpa using this
  simp only [duration_match, List.append_assoc,
    show ('P').toLower = 'p' from rfl, show ('T').toLower = 't' from rfl,
    eq_self_iff_true, if_true, stepY, stepM, stepD, stepH, stepMi, stepS, opt_getD]

/-! ## `relativedelta` is the identity on normalized components -/

theorem relativedelta_normalized (o : Offset)
    (hs : o.seconds.natAbs ≤ 59) (hmi : o.minutes.natAbs ≤ 59)
    (hh : o.hours.natAbs ≤ 23) (hmo : o.months.natAbs ≤ 11) :
    relativedelta o.years o.months o.days o.hours o.minutes o.seconds = o := by
  have c1 : ¬(59 < o.seconds.natAbs) := by omega
  have c2 : ¬(59 < o.minutes.natAbs) := by omega
  have c3 : ¬(23 < o.hours.natAbs) := by omega
  have c4 : ¬(11 < o.months.natAbs) := by omega
  simp [relativedelta, fixCarry, c1, c2, c3, c4]

/-! ## The offset round trip (C1) -/

/-- **C1, counterexample** — the claim quantifies over all offsets with
non-negative int components and at least one nonzero; the 6-tuple
`(0,0,0,0,0,70)` is such an offset, yet the round trip returns
`(0,0,0,0,1,10)`: the `relativedelta` constructor invoked by the decoder
normalizes 70 seconds into 1 minute 10 seconds, so the round trip only holds
on tuples already in `relativedelta` normal form. -/
theorem offset_roundtrip_counterexample :
    from_duration_str (to_duration_str (some ⟨0, 0, 0, 0, 0, 70⟩) "PT0S")
        ≠ some ⟨0, 0, 0, 0, 0, 70⟩
    ∧ from_duration_str (to_duration_str (some ⟨0, 0, 0, 0, 0, 70⟩) "PT0S")
        = some ⟨0, 0, 0, 0, 1, 10⟩ := by
  decide

/-- **C1, amended** — Offset round-trip: for every offset `o` whose six
components are non-negative integers with at least one component nonzero,
and which is in `relativedelta` normal form (`months ≤ 11`, `hours ≤ 23`,
`minutes ≤ 59`, `seconds ≤ 59` — the invariant `relativedelta._fix`
establishes for every constructible `relativedelta` value), and for every
default string, `from_duration_str (to_duration_str o default) = o`. -/
theorem offset_roundtrip_normalized (o : Offset) (d : String)
    (h0y : 0 ≤ o.years) (h0mo : 0 ≤ o.months) (h0d : 0 ≤ o.days)
    (h0h : 0 ≤ o.hours) (h0mi : 0 ≤ o.minutes) (h0s : 0 ≤ o.seconds)
    (hbmo : o.months ≤ 11) (hbh : o.hours ≤ 23)
    (hbmi : o.minutes ≤ 59) (hbs : o.seconds ≤ 59)
    (hnz : o ≠ ⟨0, 0, 0, 0, 0, 0⟩) :
    from_duration_str (to_duration_str (some o) d) = some o := by
  have hpos : 0 < o.years ∨ 0 < o.months ∨ 0 < o.days ∨
      0 < o.hours ∨ 0 < o.minutes ∨ 0 < o.seconds := by
    by_contra hall
    push_neg at hall
    apply hnz
    obtain ⟨y, mo, dy, h, mi, s⟩ := o
    simp_all
    omega
  rw [to_duration_str_flat o d hpos]
  have hne : (⟨'P' :: (optComp o.years 'Y' ++ optComp o.months 'M'
      ++ optComp o.days 'D' ++ 'T' :: (optComp o.hours 'H'
        ++ optComp o.minutes 'M' ++ optComp o.seconds 'S'))⟩ : String) ≠ "" := by
    intro hcontra
    have := congrArg String.data hcontra
    simp at this
  simp only [from_duration_str, if_neg hne]
  rw [duration_match_print o]
  have hsum : ¬(o.years.toNat + o.months.toNat + o.days.toNat
      + o.hours.toNat + o.minutes.toNat + o.seconds.toNat = 0) := by
    omega
  simp only [if_neg hsum]
  rw [Int.toNat_of_nonneg h0y, Int.toNat_of_nonneg h0mo, Int.toNat_of_nonneg h0d,
    Int.toNat_of_nonneg h0h, Int.toNat_of_nonneg h0mi, Int.toNat_of_nonneg h0s]
  rw [relativedelta_normalized o (by omega) (by omega) (by omega) (by omega)]

/-- Witness for `offset_roundtrip_normalized` at the concrete normalized
offset `(1, 2, 40, 5, 6, 7)` (40 days is normal form — days never carry) and
the concrete default `"PT0S"`. -/
theorem offset_roundtrip_normalized_witness :
    from_duration_str (to_duration_str (some ⟨1, 2, 40, 5, 6, 7⟩) "PT0S")
      = some ⟨1, 2, 40, 5, 6, 7⟩ :=
  offset_roundtrip_normalized ⟨1, 2, 40, 5, 6, 7⟩ "PT0S"
    (by decide) (by decide) (by decide) (by decide) (by decide) (by decide)
    (by decide) (by decide) (by decide) (by decide) (by decide)

/-! ## Theorems about the duration codec (easy claims) -/

/-- **C9** — Component isolation: for each of the six offset components
individually set to 1 and the rest to 0, with the mandatory `T` separator,
`encode_offset(decode_offset(text)) == text` for `text` in
`{"P1YT", "P1MT", "P1DT", "PT1H", "PT1M", "PT1S"}` (encode with the default
`"PT0S"`). -/
theorem offset_component_isolation :
    to_duration_str (from_duration_str "P1YT") = "P1YT"
    ∧ to_duration_str (from_duration_str "P1MT") = "P1MT"
    ∧ to_duration_str (from_duration_str "P1DT") = "P1DT"
    ∧ to_duration_str (from_duration_str "PT1H") = "PT1H"
    ∧ to_duration_str (from_duration_str "PT1M") = "PT1M"
    ∧ to_duration_str (from_duration_str "PT1S") = "PT1S" := by
  decide

/-- **C4** — Zero/absent normalization, both directions:
`decode_offset(encode_offset(None, "PT0S")) == None`;
`decode_offset("PT0S") == None`; `decode_offset("P0Y0M0DT0H0M0S") == None`;
in general a grammar-matching duration string whose components sum to zero
decodes to `None`; and `encode_offset` of a present all-zero offset returns
the default string (so never the malformed `"PT"`). -/
theorem zero_offset_normalization :
    from_duration_str (to_duration_str none "PT0S") = none
    ∧ from_duration_str "PT0S" = none
    ∧ from_duration_str "P0Y0M0DT0H0M0S" = none
    ∧ (∀ (s : String) (y mo d h mi sec : Nat),
        duration_match s.data = some (y, mo, d, h, mi, sec) →
        y + mo + d + h + mi + sec = 0 → from_duration_str s = none)
    ∧ (∀ d : String, to_duration_str (some ⟨0, 0, 0, 0, 0, 0⟩) d = d) := by
  refine ⟨by decide, by decide, by decide, ?_, fun d => rfl⟩
  intro s y mo d h mi sec hmatch hsum
  by_cases hs : s = ""
  · simp [from_duration_str, hs]
  · simp [from_duration_str, hs, hmatch, hsum]

/-- Witness for the quantified parts of `zero_offset_normalization` at the
concrete input `"P0YT"` (a grammar-matching, all-zero duration string) and
the concrete default `"d"`. -/
theorem zero_offset_normalization_witness :
    from_duration_str "P0YT" = none
    ∧ to_duration_str (some ⟨0, 0, 0, 0, 0, 0⟩) "d" = "d" :=
  ⟨zero_offset_normalization.2.2.2.1 "P0YT" 0 0 0 0 0 0 (by decide) (by decide),
   zero_offset_normalization.2.2.2.2 "d"⟩

/-- **C5, counterexample** — the claim says every string that does not match
the duration grammar *in its entirety* decodes to `None`; but the code uses
`re.match`, a prefix match: `"PT1Hx"` does not fully match the grammar yet
decodes to a one-hour offset, not `None`. -/
theorem offset_decode_fullmatch_counterexample :
    from_duration_str "PT1Hx" ≠ none
    ∧ from_duration_str "PT1Hx" = some ⟨0, 0, 0, 1, 0, 0⟩ := by
  decide

/-- **C5, amended** — Offset decode leniency and totality: `decode_offset` is
a total function (no exception path exists); it returns `None` for the empty
string, for any string on which the duration regex finds no *prefix* match
(e.g. `"not-a-duration"`), and — per the normalization — on an all-zero
match; matching is prefix-based, so trailing garbage after a nonzero
grammar-matching prefix is ignored rather than rejected. -/
theorem offset_decode_leniency :
    from_duration_str "" = none
    ∧ from_duration_str "not-a-duration" = none
    ∧ (∀ s : String, duration_match s.data = none → from_duration_str s = none) := by
  refine ⟨by decide, by decide, ?_⟩
  intro s hmatch
  by_cases hs : s = ""
  · simp [from_duration_str, hs]
  · simp [from_duration_str, hs, hmatch]

/-- Witness for the quantified part of `offset_decode_leniency` at the
concrete input `"xyz"`. -/
theorem offset_decode_leniency_witness :
    from_duration_str "xyz" = none :=
  offset_decode_leniency.2.2 "xyz" (by decide)

/-- **C10** — the encoder emits a component only when it is strictly
positive: an offset of `days = -1, hours = 5` encodes as `"PT5H"` (the
negative component is silently dropped), an offset with all components `≤ 0`
encodes as the default string, and encode-then-decode does not recover the
original value outside the non-negative domain. -/
theorem encoder_drops_nonpositive :
    to_duration_str (some ⟨0, 0, -1, 5, 0, 0⟩) "PT0S" = "PT5H"
    ∧ (∀ (o : Offset) (d : String),
        o.years ≤ 0 → o.months ≤ 0 → o.days ≤ 0 →
        o.hours ≤ 0 → o.minutes ≤ 0 → o.seconds ≤ 0 →
        to_duration_str (some o) d = d)
    ∧ from_duration_str (to_duration_str (some ⟨0, 0, -1, 5, 0, 0⟩) "PT0S")
        ≠ some ⟨0, 0, -1, 5, 0, 0⟩ := by
  refine ⟨by decide, ?_, by decide⟩
  intro o d hy hmo hd hh hmi hs
  have h1 : ¬(o.years > 0) := by omega
  have h2 : ¬(o.months > 0) := by omega
  have h3 : ¬(o.days > 0) := by omega
  have h4 : ¬(o.hours > 0) := by omega
  have h5 : ¬(o.minutes > 0) := by omega
  have h6 : ¬(o.seconds > 0) := by omega
  simp only [to_duration_str, if_neg h1, if_neg h2, if_neg h3, if_neg h4,
    if_neg h5, if_neg h6]
  rfl

/-- Witness for the quantified part of `encoder_drops_nonpositive` at the
concrete all-non-positive offset `(-3, 0, 0, 0, 0, -7)` and default
`"PT0S"`. -/
theorem encoder_drops_nonpositive_witness :
    to_duration_str (some ⟨-3, 0, 0, 0, 0, -7⟩) "PT0S" = "PT0S" :=
  encoder_drops_nonpositive.2.1 ⟨-3, 0, 0, 0, 0, -7⟩ "PT0S"
    (by decide) (by decide) (by decide) (by decide) (by decide) (by decide)

/-! ## Instant codec: parsing the printers' fixed-width fields -/

theorem digitChar_ne_dash : ∀ d : Nat, d < 10 → Nat.digitChar d ≠ '-' := by decide

theorem digitChar_ne_plus : ∀ d : Nat, d < 10 → Nat.digitChar d ≠ '+' := by decide

theorem int2_pad (n : Nat) (h : n < 100) :
    int2 (Nat.digitChar (n / 10)) (Nat.digitChar (n % 10)) = .ok n := by
  have h1 : n / 10 < 10 := by omega
  have h2 : n % 10 < 10 := by omega
  simp [int2, digitChar_isDig _ h1, digitChar_isDig _ h2,
    digitVal_digitChar _ h1, digitVal_digitChar _ h2]
  omega

theorem int4_pad (n : Nat) (h : n < 10000) :
    int4 (Nat.digitChar (n / 1000)) (Nat.digitChar (n / 100 % 10))
      (Nat.digitChar (n / 10 % 10)) (Nat.digitChar (n % 10)) = .ok n := by
  have h1 : n / 1000 < 10 := by omega
  have h2 : n / 100 % 10 < 10 := by omega
  have h3 : n / 10 % 10 < 10 := by omega
  have h4 : n % 10 < 10 := by omega
  simp [int4, digitChar_isDig _ h1, digitChar_isDig _ h2, digitChar_isDig _ h3,
    digitChar_isDig _ h4, digitVal_digitChar _ h1, digitVal_digitChar _ h2,
    digitVal_digitChar _ h3, digitVal_digitChar _ h4]
  omega

theorem daysInMonth_le (y m : Nat) : daysInMonth y m ≤ 31 := by
  unfold daysInMonth
  split_ifs <;> omega

theorem parse_date_core (y mo d : Nat) (hy : y < 10000) (hmo : mo < 100)
    (hd : d < 100) : parse_isoformat_date (dateCore y mo d) = .ok (y, mo, d) := by
  simp only [dateCore, pad4, pad2, List.cons_append, List.nil_append]
  simp only [parse_isoformat_date, int4_pad y hy, int2_pad mo hmo, int2_pad d hd]
  rfl

theorem parse_time_core (h mi s : Nat) (hh : h < 100) (hmi : mi < 100)
    (hs : s < 100) : parse_hh_mm_ss_ff (timeCore h mi s) = .ok (h, mi, s, 0) := by
  simp only [timeCore, pad2, List.cons_append, List.nil_append]
  simp only [parse_hh_mm_ss_ff, int2_pad h hh, int2_pad mi hmi, int2_pad s hs]
  rfl

theorem parse_time_hm (h mi : Nat) (hh : h < 100) (hmi : mi < 100) :
    parse_hh_mm_ss_ff (pad2 h ++ (':' :: pad2 mi)) = .ok (h, mi, 0, 0) := by
  simp only [pad2, List.cons_append, List.nil_append]
  simp only [parse_hh_mm_ss_ff, int2_pad h hh, int2_pad mi hmi]
  rfl

theorem parse_tzDigits (a : Nat) (ha : a ≤ 86399) :
    parse_hh_mm_ss_ff (tzDigits a) = .ok (a / 3600, a % 3600 / 60, a % 60, 0) := by
  by_cases h60 : a % 60 = 0
  · rw [tzDigits, if_neg (by omega), List.append_nil,
      parse_time_hm _ _ (by omega) (by omega), h60]
  · rw [tzDigits, if_pos h60]
    exact parse_time_core _ _ _ (by omega) (by omega) (by omega)

theorem dateCore_length (y mo d : Nat) : (dateCore y mo d).length = 10 := by
  simp [dateCore, pad4, pad2]

theorem timeCore_length (h mi s : Nat) : (timeCore h mi s).length = 8 := by
  simp [timeCore, pad2]

theorem tzDigits_length (a : Nat) :
    (tzDigits a).length = if a % 60 ≠ 0 then 8 else 5 := by
  by_cases h : a % 60 ≠ 0 <;> simp [tzDigits, pad2, h]

theorem mem_timeCore (h mi s : Nat) (hh : h < 100) (hmi : mi < 100) (hs : s < 100) :
    ∀ c ∈ timeCore h mi s, isDig c = true ∨ c = ':' := by
  intro c hc
  simp [timeCore, pad2] at hc
  rcases hc with rfl | rfl | rfl | rfl | rfl | rfl | rfl | rfl <;>
    first
      | (left; exact digitChar_isDig _ (by omega))
      | (right; rfl)

theorem mem_tzDigits (a : Nat) (ha : a ≤ 86399) :
    ∀ c ∈ tzDigits a, isDig c = true ∨ c = ':' := by
  intro c hc
  by_cases h60 : a % 60 ≠ 0 <;> simp [tzDigits, pad2, h60] at hc <;>
    rcases hc with rfl | rfl | rfl | rfl | rfl | rfl | rfl | rfl <;>
      first
        | (left; exact digitChar_isDig _ (by omega))
        | (right; rfl)

theorem not_mem_of_chars {l : List Char}
    (hl : ∀ c ∈ l, isDig c = true ∨ c = ':') (c : Char)
    (h1 : isDig c = false) (h2 : c ≠ ':') : c ∉ l := by
  intro hm
  rcases hl c hm with h | h
  · rw [h1] at h; exact absurd h (by simp)
  · exact h2 h

theorem strFind_eq_none {c : Char} :
    ∀ {l : List Char}, c ∉ l → strFind c l = none := by
  intro l
  induction l with
  | nil => intro _; rfl
  | cons a t ih =>
    intro h
    have hac : ¬(a = c) := fun hh => h (hh ▸ List.mem_cons_self a t)
    simp only [strFind, if_neg hac, ih (fun hm => h (List.mem_cons_of_mem a hm)),
      Option.map_none']

theorem strFind_append {c : Char} :
    ∀ {l1 : List Char} (l2 : List Char), c ∉ l1 →
      strFind c (l1 ++ c :: l2) = some l1.length := by
  intro l1
  induction l1 with
  | nil => intro l2 _; simp [strFind]
  | cons a t ih =>
    intro l2 h
    have hac : ¬(a = c) := fun hh => h (hh ▸ List.mem_cons_self a t)
    simp only [List.cons_append, strFind, if_neg hac, List.append_eq,
      ih l2 (fun hm => h (List.mem_cons_of_mem a hm)), Option.map_some',
      List.length_cons]

theorem not_mem_append_cons {c u : Char} {l1 l2 : List Char}
    (h1 : c ∉ l1) (h2 : c ≠ u) (h3 : c ∉ l2) : c ∉ l1 ++ u :: l2 := by
  simp only [List.mem_append, List.mem_cons]
  push_neg
  exact ⟨h1, h2, h3⟩

theorem except_bind_ok {ε α β : Type} (a : α) (f : α → Except ε β) :
    (Except.ok a >>= f : Except ε β) = f a := rfl

theorem except_pure {ε α : Type} (a : α) : (pure a : Except ε α) = Except.ok a := rfl

theorem parse_time_naive (h mi s : Nat) (hh : h < 100) (hmi : mi < 100)
    (hs : s < 100) :
    parse_isoformat_time (timeCore h mi s) = .ok ((h, mi, s, 0), none) := by
  have hchars := mem_timeCore h mi s hh hmi hs
  have hm1 : '-' ∉ timeCore h mi s := not_mem_of_chars hchars '-' (by decide) (by decide)
  have hm2 : '+' ∉ timeCore h mi s := not_mem_of_chars hchars '+' (by decide) (by decide)
  have hlen : ¬((timeCore h mi s).length < 2) := by rw [timeCore_length]; omega
  unfold parse_isoformat_time
  rw [if_neg hlen, strFind_eq_none hm1, strFind_eq_none hm2,
    parse_time_core h mi s hh hmi hs]
  rfl

theorem parse_time_tz (h mi s : Nat) (off : Int)
    (hh : h < 100) (hmi : mi < 100) (hs : s < 100) (hoff : off.natAbs ≤ 86399) :
    parse_isoformat_time (timeCore h mi s ++ tzCore off) =
      .ok ((h, mi, s, 0), some off) := by
  have hchars := mem_timeCore h mi s hh hmi hs
  have hzchars := mem_tzDigits off.natAbs hoff
  have hm1 : '-' ∉ timeCore h mi s := not_mem_of_chars hchars '-' (by decide) (by decide)
  have hm2 : '+' ∉ timeCore h mi s := not_mem_of_chars hchars '+' (by decide) (by decide)
  have hz1 : '-' ∉ tzDigits off.natAbs :=
    not_mem_of_chars hzchars '-' (by decide) (by decide)
  have hz2 : '+' ∉ tzDigits off.natAbs :=
    not_mem_of_chars hzchars '+' (by decide) (by decide)
  have hTC : (timeCore h mi s).length = 8 := timeCore_length h mi s
  have hlen : ¬((timeCore h mi s ++ tzCore off).length < 2) := by
    rw [List.length_append, hTC]; omega
  have htzlen : (tzDigits off.natAbs).length = 5 ∨ (tzDigits off.natAbs).length = 8 := by
    rw [tzDigits_length]
    split_ifs <;> simp
  unfold parse_isoformat_time
  rw [if_neg hlen]
  by_cases hneg : off < 0
  · have hsign : tzCore off = '-' :: tzDigits off.natAbs := by simp [tzCore, hneg]
    rw [hsign, strFind_append _ hm1, hTC]
    have hdrop : (timeCore h mi s ++ '-' :: tzDigits off.natAbs).drop (8 + 1) =
        tzDigits off.natAbs := by
      rw [show timeCore h mi s ++ '-' :: tzDigits off.natAbs =
        (timeCore h mi s ++ ['-']) ++ tzDigits off.natAbs by simp]
      exact List.drop_left' (by simp [hTC])
    have hval : (-1 : Int) * (↑(off.natAbs / 3600) * 3600
        + ↑(off.natAbs % 3600 / 60) * 60 + ↑(off.natAbs % 60)) = off := by omega
    simp only [List.take_left' hTC, hdrop, parse_time_core h mi s hh hmi hs,
      parse_tzDigits off.natAbs hoff, eq_true htzlen, if_true,
      except_bind_ok, except_pure, hval, eq_true hoff, if_true]
    have hfalse : ¬(off.natAbs / 3600 = 0 ∧ off.natAbs % 3600 / 60 = 0
        ∧ off.natAbs % 60 = 0 ∧ True) := by
      rintro ⟨e1, e2, e3, -⟩
      omega
    rw [if_neg hfalse]
  · have hsign : tzCore off = '+' :: tzDigits off.natAbs := by simp [tzCore, hneg]
    have hnomem : '-' ∉ timeCore h mi s ++ '+' :: tzDigits off.natAbs :=
      not_mem_append_cons hm1 (by decide) hz1
    rw [hsign, strFind_eq_none hnomem, strFind_append _ hm2, hTC]
    have hdrop : (timeCore h mi s ++ '+' :: tzDigits off.natAbs).drop (8 + 1) =
        tzDigits off.natAbs := by
      rw [show timeCore h mi s ++ '+' :: tzDigits off.natAbs =
        (timeCore h mi s ++ ['+']) ++ tzDigits off.natAbs by simp]
      exact List.drop_left' (by simp [hTC])
    by_cases hzero : off = 0
    · have ha0 : off.natAbs = 0 := by omega
      simp only [List.take_left' hTC, hdrop, parse_time_core h mi s hh hmi hs,
        parse_tzDigits off.natAbs hoff, eq_true htzlen, if_true,
        except_bind_ok, except_pure]
      rw [if_pos (show off.natAbs / 3600 = 0 ∧ off.natAbs % 3600 / 60 = 0
        ∧ off.natAbs % 60 = 0 ∧ True from ⟨by omega, by omega, by omega, trivial⟩),
        hzero]
    · have hval : (1 : Int) * (↑(off.natAbs / 3600) * 3600
          + ↑(off.natAbs % 3600 / 60) * 60 + ↑(off.natAbs % 60)) = off := by omega
      simp only [List.take_left' hTC, hdrop, parse_time_core h mi s hh hmi hs,
        parse_tzDigits off.natAbs hoff, eq_true htzlen, if_true,
        except_bind_ok, except_pure, hval, eq_true hoff, if_true]
      have hfalse : ¬(off.natAbs / 3600 = 0 ∧ off.natAbs % 3600 / 60 = 0
          ∧ off.natAbs % 60 = 0 ∧ True) := by
        rintro ⟨e1, e2, e3, -⟩
        omega
      rw [if_neg hfalse]

/-- The parser applied to the printer's exact output recovers the printed
`datetime` value, for any valid second-precision value. -/
theorem fromisoformat_isoformat (d : Datetime) (hv : d.Valid)
    (hus : d.microsecond = 0) : fromisoformat ⟨isoformatList d⟩ = .ok d := by
  obtain ⟨y, mo, dy, hh, mi, ss, us, tz⟩ := d
  replace hus : us = 0 := hus
  subst hus
  dsimp only [Datetime.Valid] at hv
  obtain ⟨hv1, hv2, hv3, hv4, hv5, hv6, hv7, hv8, hv9, hv10, hv11⟩ := hv
  have hd100 : dy < 100 := by
    have := daysInMonth_le y mo
    omega
  cases tz with
  | none =>
    have hiso : isoformatList ⟨y, mo, dy, hh, mi, ss, 0, none⟩ =
        dateCore y mo dy ++ ('T' :: timeCore hh mi ss) := by
      simp [isoformatList]
    have htake : (dateCore y mo dy ++ ('T' :: timeCore hh mi ss)).take 10 =
        dateCore y mo dy := List.take_left' (dateCore_length y mo dy)
    have hdrop : (dateCore y mo dy ++ ('T' :: timeCore hh mi ss)).drop 11 =
        timeCore hh mi ss := by
      rw [show dateCore y mo dy ++ ('T' :: timeCore hh mi ss) =
        (dateCore y mo dy ++ ['T']) ++ timeCore hh mi ss by simp]
      exact List.drop_left' (by simp [dateCore_length])
    have hemp : (timeCore hh mi ss).isEmpty = false := by simp [timeCore, pad2]
    have hcond : 1 ≤ y ∧ y ≤ 9999 ∧ 1 ≤ mo ∧ mo ≤ 12 ∧ 1 ≤ dy
        ∧ dy ≤ daysInMonth y mo ∧ hh ≤ 23 ∧ mi ≤ 59 ∧ ss ≤ 59
        ∧ (0 : Nat) ≤ 999999 :=
      ⟨hv1, hv2, hv3, hv4, hv5, hv6, hv7, hv8, hv9, by omega⟩
    simp only [fromisoformat, hiso, htake, hdrop,
      parse_date_core y mo dy (by omega) (by omega) hd100, hemp,
      Bool.false_eq_true, if_false,
      parse_time_naive hh mi ss (by omega) (by omega) (by omega),
      except_bind_ok, except_pure, datetime_new, eq_true hcond, if_true]
  | some off =>
    have hoff : off.natAbs ≤ 86399 := hv11 off (by simp)
    have hiso : isoformatList ⟨y, mo, dy, hh, mi, ss, 0, some off⟩ =
        dateCore y mo dy ++ ('T' :: (timeCore hh mi ss ++ tzCore off)) := by
      simp [isoformatList]
    have htake : (dateCore y mo dy
        ++ ('T' :: (timeCore hh mi ss ++ tzCore off))).take 10 =
        dateCore y mo dy := List.take_left' (dateCore_length y mo dy)
    have hdrop : (dateCore y mo dy
        ++ ('T' :: (timeCore hh mi ss ++ tzCore off))).drop 11 =
        timeCore hh mi ss ++ tzCore off := by
      rw [show dateCore y mo dy ++ ('T' :: (timeCore hh mi ss ++ tzCore off)) =
        (dateCore y mo dy ++ ['T']) ++ (timeCore hh mi ss ++ tzCore off) by simp]
      exact List.drop_left' (by simp [dateCore_length])
    have hemp : (timeCore hh mi ss ++ tzCore off).isEmpty = false := by
      simp [timeCore, pad2]
    have hcond : 1 ≤ y ∧ y ≤ 9999 ∧ 1 ≤ mo ∧ mo ≤ 12 ∧ 1 ≤ dy
        ∧ dy ≤ daysInMonth y mo ∧ hh ≤ 23 ∧ mi ≤ 59 ∧ ss ≤ 59
        ∧ (0 : Nat) ≤ 999999 :=
      ⟨hv1, hv2, hv3, hv4, hv5, hv6, hv7, hv8, hv9, by omega⟩
    simp only [fromisoformat, hiso, htake, hdrop,
      parse_date_core y mo dy (by omega) (by omega) hd100, hemp,
      Bool.false_eq_true, if_false,
      parse_time_tz hh mi ss off (by omega) (by omega) (by omega) hoff,
      except_bind_ok, except_pure, datetime_new, eq_true hcond, if_true]

/-- **C7** — Instant round-trip: for every valid instant representable at
second precision (zero sub-second part), whether naive or carrying an
offset-from-UTC, `from_date_str (to_date_str i) = i`. -/
theorem instant_roundtrip (d : Datetime) (hv : d.Valid) (hus : d.microsecond = 0) :
    from_date_str (to_date_str (some d) "") = .ok (some d) := by
  have hne : (⟨isoformatList d⟩ : String) ≠ "" := by
    intro h
    have h2 := congrArg String.data h
    have h3 := congrArg List.length h2
    simp [isoformatList, dateCore, pad4, pad2] at h3
  show from_date_str ⟨isoformatList d⟩ = .ok (some d)
  simp only [from_date_str, if_neg hne, fromisoformat_isoformat d hv hus]
  rfl

/-- Witness for `instant_roundtrip` at a concrete aware instant with a
negative half-hour offset. -/
theorem instant_roundtrip_witness :
    from_date_str (to_date_str (some ⟨2021, 6, 5, 4, 3, 2, 0, some (-19800)⟩) "")
      = .ok (some ⟨2021, 6, 5, 4, 3, 2, 0, some (-19800)⟩) :=
  instant_roundtrip ⟨2021, 6, 5, 4, 3, 2, 0, some (-19800)⟩ (by decide) rfl

/-- **C8, counterexample** — the claim says *any* datetime value, including
one with a nonzero sub-second part, encodes to `YYYY-MM-DDTHH:MM:SS[±HH:MM]`;
but `to_date_str` calls `isoformat()` with no `timespec`, which appends
`.ffffff` whenever the microsecond field is nonzero, so such a value does not
match the claimed wire format. -/
theorem instant_encode_subsecond_counterexample :
    to_date_str (some ⟨2021, 1, 1, 0, 0, 0, 500000, none⟩) ""
        = "2021-01-01T00:00:00.500000"
    ∧ instantWireFormat
        (to_date_str (some ⟨2021, 1, 1, 0, 0, 0, 500000, none⟩) "").data = false := by
  decide

/-- **C8, amended** — Instant encode wire format: for every *valid* present
instant with zero sub-second part and (when aware) a whole-minute UTC offset,
`encode_instant` returns a string in the wire format `YYYY-MM-DDTHH:MM:SS`
optionally followed by `±HH:MM`; an absent instant returns the given default.
(A nonzero sub-second part appends `.ffffff`; a sub-minute offset appends
`:SS`.) -/
theorem instant_encode_wire_format (d : Datetime) (hv : d.Valid)
    (hus : d.microsecond = 0) (hwm : ∀ off ∈ d.tzoffset, off % 60 = 0) :
    instantWireFormat (to_date_str (some d) "").data = true
    ∧ ∀ default : String, to_date_str none default = default := by
  refine ⟨?_, fun _ => rfl⟩
  obtain ⟨y, mo, dy, hh, mi, ss, us, tz⟩ := d
  replace hus : us = 0 := hus
  subst hus
  dsimp only [Datetime.Valid] at hv
  obtain ⟨hv1, hv2, hv3, hv4, hv5, hv6, hv7, hv8, hv9, hv10, hv11⟩ := hv
  have hd100 : dy < 100 := by
    have := daysInMonth_le y mo
    omega
  have hy1 : isDig (Nat.digitChar (y / 1000)) = true := digitChar_isDig _ (by omega)
  have hy2 : isDig (Nat.digitChar (y / 100 % 10)) = true := digitChar_isDig _ (by omega)
  have hy3 : isDig (Nat.digitChar (y / 10 % 10)) = true := digitChar_isDig _ (by omega)
  have hy4 : isDig (Nat.digitChar (y % 10)) = true := digitChar_isDig _ (by omega)
  have hm1 : isDig (Nat.digitChar (mo / 10)) = true := digitChar_isDig _ (by omega)
  have hm2 : isDig (Nat.digitChar (mo % 10)) = true := digitChar_isDig _ (by omega)
  have hd1 : isDig (Nat.digitChar (dy / 10)) = true := digitChar_isDig _ (by omega)
  have hd2 : isDig (Nat.digitChar (dy % 10)) = true := digitChar_isDig _ (by omega)
  have hh1 : isDig (Nat.digitChar (hh / 10)) = true := digitChar_isDig _ (by omega)
  have hh2 : isDig (Nat.digitChar (hh % 10)) = true := digitChar_isDig _ (by omega)
  have hn1 : isDig (Nat.digitChar (mi / 10)) = true := digitChar_isDig _ (by omega)
  have hn2 : isDig (Nat.digitChar (mi % 10)) = true := digitChar_isDig _ (by omega)
  have hs1 : isDig (Nat.digitChar (ss / 10)) = true := digitChar_isDig _ (by omega)
  have hs2 : isDig (Nat.digitChar (ss % 10)) = true := digitChar_isDig _ (by omega)
  show instantWireFormat (isoformatList ⟨y, mo, dy, hh, mi, ss, 0, tz⟩) = true
  cases tz with
  | none =>
    simp only [isoformatList, dateCore, timeCore, pad4, pad2,
      List.cons_append, List.nil_append, List.append_nil]
    simp [instantWireFormat, hy1, hy2, hy3, hy4, hm1, hm2, hd1, hd2,
      hh1, hh2, hn1, hn2, hs1, hs2]
  | some off =>
    have hoff : off.natAbs ≤ 86399 := hv11 off (by simp)
    have hwm0 : off % 60 = 0 := hwm off (by simp)
    have h60 : off.natAbs % 60 = 0 := by omega
    have ht1 : isDig (Nat.digitChar (off.natAbs / 3600 / 10)) = true :=
      digitChar_isDig _ (by omega)
    have ht2 : isDig (Nat.digitChar (off.natAbs / 3600 % 10)) = true :=
      digitChar_isDig _ (by omega)
    have ht3 : isDig (Nat.digitChar (off.natAbs % 3600 / 60 / 10)) = true :=
      digitChar_isDig _ (by omega)
    have ht4 : isDig (Nat.digitChar (off.natAbs % 3600 / 60 % 10)) = true :=
      digitChar_isDig _ (by omega)
    by_cases hneg : off < 0 <;>
      · simp only [isoformatList, dateCore, timeCore, tzCore, tzDigits,
          if_neg (show ¬(off.natAbs % 60 ≠ 0) by omega), hneg, pad4, pad2,
          List.cons_append, List.nil_append, List.append_nil,
          if_true, if_false, ite_true, ite_false]
        simp [instantWireFormat, hy1, hy2, hy3, hy4, hm1, hm2, hd1, hd2,
          hh1, hh2, hn1, hn2, hs1, hs2, ht1, ht2, ht3, ht4]

/-- Witness for `instant_encode_wire_format` at a concrete aware instant with
a whole-hour offset and at the concrete default `"x"`. -/
theorem instant_encode_wire_format_witness :
    instantWireFormat (to_date_str (some ⟨2021, 1, 2, 3, 4, 5, 0, some 3600⟩) "").data
        = true
    ∧ to_date_str none "x" = "x" :=
  ⟨(instant_encode_wire_format ⟨2021, 1, 2, 3, 4, 5, 0, some 3600⟩
      (by decide) rfl (by decide)).1,
   (instant_encode_wire_format ⟨2021, 1, 2, 3, 4, 5, 0, some 3600⟩
      (by decide) rfl (by decide)).2 "x"⟩

/-! ## Theorems about the dispatcher -/

theorem actionType_fromValue_value (k : ActionType) :
    ActionType.fromValue k.value = .ok k := by
  cases k <;> rfl

theorem triggerType_fromValue_value (k : TriggerType) :
    TriggerType.fromValue k.value = .ok k := by
  cases k <;> rfl

/-- A successful `iterMap` result consists of images of collection members. -/
theorem iterMap_mem {α β ε : Type} {f : α → Except ε β} :
    ∀ {l : List α} {res : List β}, iterMap f l = .ok res →
      ∀ b ∈ res, ∃ a ∈ l, f a = .ok b := by
  intro l
  induction l with
  | nil =>
    intro res h b hb
    simp only [iterMap] at h
    injection h with h
    subst h
    simp at hb
  | cons a l ih =>
    intro res h b hb
    simp only [iterMap] at h
    cases hfa : f a with
    | error e => rw [hfa] at h; exact absurd h (by simp)
    | ok b0 =>
      rw [hfa] at h
      cases hrest : iterMap f l with
      | error e => rw [hrest] at h; exact absurd h (by simp)
      | ok rs =>
        rw [hrest] at h
        injection h with h
        subst h
        rcases List.mem_cons.mp hb with rfl | hb
        · exact ⟨a, List.mem_cons_self a l, hfa⟩
        · obtain ⟨a', ha', hfa'⟩ := ih hrest b hb
          exact ⟨a', List.mem_cons_of_mem a ha', hfa'⟩

/-- Anatomy of a successful action wrap: the handle's discriminator converted
to an enum member, that member dispatched to the returned class, the handle
passed through. -/
theorem wrapAction_ok {obj : ComAction} {p : ActionClass × ComAction}
    (h : wrapAction obj = .ok p) :
    ∃ t, ActionType.fromValue obj.typeVal = .ok t
      ∧ get_action_class t = .ok p.1 ∧ p.2 = obj := by
  unfold wrapAction at h
  cases h1 : ActionType.fromValue obj.typeVal with
  | error e => simp [h1] at h
  | ok t =>
    simp only [h1] at h
    cases h2 : get_action_class t with
    | error e => simp [h2] at h
    | ok cls =>
      simp only [h2] at h
      injection h with h
      subst h
      exact ⟨t, rfl, h2, rfl⟩

/-- Anatomy of a successful trigger wrap. -/
theorem wrapTrigger_ok {obj : ComTrigger} {p : TriggerClass × ComTrigger}
    (h : wrapTrigger obj = .ok p) :
    ∃ t, TriggerType.fromValue obj.typeVal = .ok t
      ∧ get_trigger_class t = .ok p.1 ∧ p.2 = obj := by
  unfold wrapTrigger at h
  cases h1 : TriggerType.fromValue obj.typeVal with
  | error e => simp [h1] at h
  | ok t =>
    simp only [h1] at h
    cases h2 : get_trigger_class t with
    | error e => simp [h2] at h
    | ok cls =>
      simp only [h2] at h
      injection h with h
      subst h
      exact ⟨t, rfl, h2, rfl⟩

/-- **C2** — Dispatch consistency: for every `(kind, class)` pair registered
in the action or trigger lookup table, all three wrapping paths — single-item
retrieval (`item`/`__getitem__`), full-collection iteration (`__iter__`), and
creation (`create(kind)`) — resolve that discriminator to that same concrete
wrapper class. -/
theorem dispatch_consistency :
    (∀ (k : ActionType) (cls : ActionClass), get_action_class k = .ok cls →
      (∀ obj : ComAction, obj.typeVal = k.value → wrapAction obj = .ok (cls, obj))
      ∧ (∀ (coll : List ComAction) (i : Int) (obj : ComAction),
          comItem coll i = .ok obj → obj.typeVal = k.value →
          ActionCollection.item coll i = .ok (cls, obj))
      ∧ (∀ (coll : List ComAction) (res : List (ActionClass × ComAction)),
          ActionCollection.iterate coll = .ok res →
          ∀ p ∈ res, p.2.typeVal = k.value → p.1 = cls)
      ∧ (∀ coll : List ComAction,
          ActionCollection.create coll k = .ok ((cls, ⟨k.value⟩), coll ++ [⟨k.value⟩])))
    ∧ (∀ (k : TriggerType) (cls : TriggerClass), get_trigger_class k = .ok cls →
      (∀ obj : ComTrigger, obj.typeVal = k.value → wrapTrigger obj = .ok (cls, obj))
      ∧ (∀ (coll : List ComTrigger) (i : Int) (obj : ComTrigger),
          comItem coll i = .ok obj → obj.typeVal = k.value →
          TriggerCollection.item coll i = .ok (cls, obj))
      ∧ (∀ (coll : List ComTrigger) (res : List (TriggerClass × ComTrigger)),
          TriggerCollection.iterate coll = .ok res →
          ∀ p ∈ res, p.2.typeVal = k.value → p.1 = cls)
      ∧ (∀ coll : List ComTrigger,
          TriggerCollection.create coll k = .ok ((cls, ⟨k.value⟩), coll ++ [⟨k.value⟩]))) := by
  constructor
  · intro k cls hk
    have hwrap : ∀ obj : ComAction, obj.typeVal = k.value →
        wrapAction obj = .ok (cls, obj) := by
      intro obj hobj
      simp [wrapAction, hobj, actionType_fromValue_value, hk]
    refine ⟨hwrap, ?_, ?_, ?_⟩
    · intro coll i obj hitem hobj
      unfold ActionCollection.item
      rw [hitem]
      exact hwrap obj hobj
    · intro coll res hiter p hp hptype
      obtain ⟨a, _, hfa⟩ := iterMap_mem hiter p hp
      obtain ⟨t, h1, h2, h3⟩ := wrapAction_ok hfa
      rw [← h3, hptype, actionType_fromValue_value] at h1
      injection h1 with h1
      rw [← h1, hk] at h2
      injection h2 with h2
      exact h2.symm
    · intro coll
      unfold ActionCollection.create
      rw [hk]
  · intro k cls hk
    have hwrap : ∀ obj : ComTrigger, obj.typeVal = k.value →
        wrapTrigger obj = .ok (cls, obj) := by
      intro obj hobj
      simp [wrapTrigger, hobj, triggerType_fromValue_value, hk]
    refine ⟨hwrap, ?_, ?_, ?_⟩
    · intro coll i obj hitem hobj
      unfold TriggerCollection.item
      rw [hitem]
      exact hwrap obj hobj
    · intro coll res hiter p hp hptype
      obtain ⟨a, _, hfa⟩ := iterMap_mem hiter p hp
      obtain ⟨t, h1, h2, h3⟩ := wrapTrigger_ok hfa
      rw [← h3, hptype, triggerType_fromValue_value] at h1
      injection h1 with h1
      rw [← h1, hk] at h2
      injection h2 with h2
      exact h2.symm
    · intro coll
      unfold TriggerCollection.create
      rw [hk]

/-- Witness for `dispatch_consistency` at concrete registered pairs:
`EXEC ↦ ExecAction` through wrap, item and create, and `BOOT ↦ BootTrigger`
through wrap. -/
theorem dispatch_consistency_witness :
    wrapAction ⟨0⟩ = .ok (.ExecAction, ⟨0⟩)
    ∧ ActionCollection.item [⟨0⟩] 1 = .ok (.ExecAction, ⟨0⟩)
    ∧ ActionCollection.create [] .EXEC = .ok ((.ExecAction, ⟨0⟩), [⟨0⟩])
    ∧ wrapTrigger ⟨8⟩ = .ok (.BootTrigger, ⟨8⟩) :=
  ⟨(dispatch_consistency.1 .EXEC .ExecAction (by decide)).1 ⟨0⟩ rfl,
   (dispatch_consistency.1 .EXEC .ExecAction (by decide)).2.1 [⟨0⟩] 1 ⟨0⟩ (by decide) rfl,
   (dispatch_consistency.1 .EXEC .ExecAction (by decide)).2.2.2 [],
   (dispatch_consistency.2 .BOOT .BootTrigger (by decide)).1 ⟨8⟩ rfl⟩

/-- **C3** — Unknown kind fails closed: `get_trigger_class` errors exactly on
the one `TriggerType` member outside the eleven registered trigger kinds
(`CUSTOM_TRIGGER`, wire value 12) and never returns a default type there; and
for raw discriminator values, the enum conversions themselves reject every
value outside the registered members (`ActionType` has no unregistered
member, so no `ActionType` value can reach `get_action_class`'s error arm). -/
theorem unknown_kind_fails_closed :
    get_trigger_class .CUSTOM_TRIGGER = .error (.runtimeError "Invalid type")
    ∧ (∀ t : TriggerType,
        (∀ c, get_trigger_class t ≠ .ok c) ↔ t = .CUSTOM_TRIGGER)
    ∧ (∀ t : ActionType, ∃ c, get_action_class t = .ok c)
    ∧ (∀ v : Int, v ≠ 0 → v ≠ 5 → v ≠ 6 → v ≠ 7 →
        ActionType.fromValue v = .error (.valueError "is not a valid ActionType"))
    ∧ (∀ v : Int, v ≠ 0 → v ≠ 1 → v ≠ 2 → v ≠ 3 → v ≠ 4 → v ≠ 5 → v ≠ 6 →
        v ≠ 7 → v ≠ 8 → v ≠ 9 → v ≠ 11 → v ≠ 12 →
        TriggerType.fromValue v = .error (.valueError "is not a valid TriggerType")) := by
  refine ⟨by decide, ?_, ?_, ?_, ?_⟩
  · intro t
    cases t <;> simp [get_trigger_class]
  · intro t
    cases t <;> exact ⟨_, rfl⟩
  · intro v h0 h5 h6 h7
    simp [ActionType.fromValue, h0, h5, h6, h7]
  · intro v h0 h1 h2 h3 h4 h5 h6 h7 h8 h9 h11 h12
    simp [TriggerType.fromValue, h0, h1, h2, h3, h4, h5, h6, h7, h8, h9, h11, h12]

/-- Witness for the quantified parts of `unknown_kind_fails_closed`: the
unassigned wire values 3 (action) and 10 (trigger) are rejected, and the
registered member `TIME` does resolve. -/
theorem unknown_kind_fails_closed_witness :
    ActionType.fromValue 3 = .error (.valueError "is not a valid ActionType")
    ∧ TriggerType.fromValue 10 = .error (.valueError "is not a valid TriggerType")
    ∧ ¬(∀ c, get_trigger_class .TIME ≠ .ok c) :=
  ⟨unknown_kind_fails_closed.2.2.2.1 3
      (by decide) (by decide) (by decide) (by decide),
   unknown_kind_fails_closed.2.2.2.2 10
      (by decide) (by decide) (by decide) (by decide) (by decide) (by decide)
      (by decide) (by decide) (by decide) (by decide) (by decide) (by decide),
   fun h => absurd ((unknown_kind_fails_closed.2.1 .TIME).mp h) (by decide)⟩

/-! ## Theorems about the instant codec (easy claims) -/

/-- **C6** — Strict instant parsing: `decode_instant("")` is "no instant"
(`None`) without error; `decode_instant("not-a-date")` raises a parse error;
and no non-empty string ever yields `None` — parse failure raises instead of
returning `None` or a default. -/
theorem strict_instant_parsing :
    from_date_str "" = .ok none
    ∧ from_date_str "not-a-date" = .error "Invalid isoformat string"
    ∧ (∀ s : String, s ≠ "" → from_date_str s ≠ .ok none) := by
  refine ⟨by decide, by decide, ?_⟩
  intro s hs
  simp only [from_date_str, if_neg hs]
  cases h : fromisoformat s <;> simp [Except.map, h]

/-- Witness for the quantified part of `strict_instant_parsing` at the
concrete non-empty input `"x"`. -/
theorem strict_instant_parsing_witness :
    from_date_str "x" ≠ .ok none :=
  strict_instant_parsing.2.2 "x" (by decide)

end TaskScheduler

section DispatchSanity

open TaskScheduler

example : get_action_class .EXEC = .ok .ExecAction := by decide
example :
    get_trigger_class .CUSTOM_TRIGGER = .error (.runtimeError "Invalid type") := by
  decide
example : ActionType.fromValue 3 = .error (.valueError "is not a valid ActionType") := by
  decide
example : ActionCollection.item [⟨0⟩] 1 = .ok (.ExecAction, ⟨0⟩) := by decide
example : ActionCollection.item [⟨0⟩] 2 = .error (.indexError "No Action at index") := by
  decide
example : TriggerCollection.item [⟨12⟩] 1 = .error (.runtimeError "Invalid type") := by
  decide
example :
    ActionCollection.create [] .SEND_EMAIL = .ok ((.EmailAction, ⟨6⟩), [⟨6⟩]) := by
  decide

end DispatchSanity

section InstantSanity

open TaskScheduler

example : from_date_str "" = .ok none := by decide
example : from_date_str "not-a-date" = .error "Invalid isoformat string" := by decide
example :
    from_date_str "2021-06-05T04:03:02" =
      .ok (some ⟨2021, 6, 5, 4, 3, 2, 0, none⟩) := by decide
example :
    to_date_str (some ⟨2021, 6, 5, 4, 3, 2, 0, none⟩) = "2021-06-05T04:03:02" := by
  decide
example :
    to_date_str (some ⟨2021, 6, 5, 4, 3, 2, 0, some (-19800)⟩) =
      "2021-06-05T04:03:02-05:30" := by decide
example :
    from_date_str "2021-06-05T04:03:02-05:30" =
      .ok (some ⟨2021, 6, 5, 4, 3, 2, 0, some (-19800)⟩) := by decide
example :
    to_date_str (some ⟨2021, 1, 1, 0, 0, 0, 500000, none⟩) =
      "2021-01-01T00:00:00.500000" := by decide
example :
    from_date_str "2021-01-01T00:00:00.500000" =
      .ok (some ⟨2021, 1, 1, 0, 0, 0, 500000, none⟩) := by decide
example : from_date_str "2021-02-30T00:00:00" = .error "field value out of range" := by
  decide
example :
    from_date_str "2020-02-29T23:59:59+00:00" =
      .ok (some ⟨2020, 2, 29, 23, 59, 59, 0, some 0⟩) := by decide

end InstantSanity

section DurationSanity

open TaskScheduler

example : from_duration_str "" = none := by decide
example : from_duration_str "not-a-duration" = none := by decide
example : from_duration_str "PT0S" = none := by decide
example : from_duration_str "P0Y0M0DT0H0M0S" = none := by decide
example : from_duration_str "P1Y1M1DT1H1M1S" = some ⟨1, 1, 1, 1, 1, 1⟩ := by decide
example : from_duration_str "P1YT" = some ⟨1, 0, 0, 0, 0, 0⟩ := by decide
example : from_duration_str "pt5h" = some ⟨0, 0, 0, 5, 0, 0⟩ := by decide
example : to_duration_str (some ⟨1, 0, 0, 0, 0, 0⟩) = "P1YT" := by decide
example : to_duration_str none = "PT0S" := by decide
example : to_duration_str (some ⟨0, 0, 0, 0, 0, 0⟩) = "PT0S" := by decide
example : from_duration_str "PT70S" = some ⟨0, 0, 0, 0, 1, 10⟩ := by decide
example : from_duration_str "PT1Hx" = some ⟨0, 0, 0, 1, 0, 0⟩ := by decide

end DurationSanity
